import Mathlib

/-!
Shallow embedding of `src/backend/native/hdf5/src/hdf5_reader.cpp`
(class `HDF5Reader` and its N-API wrappers).

The wrapped HDF5/HighFive library is modelled abstractly: an open file is a
partial map from path strings to group listings, attributes and datasets, and
the hyperslab select+read calls are modelled by `selectRead1` / `selectRead2`
following the library's documented contract (a selection succeeds exactly when
it lies inside the dataset extent, and otherwise throws, which the C++ catches).
All other definitions are translated line by line from the reader's code.
-/

set_option autoImplicit false

namespace Hdf5

/-- A dataset stored in the container: its dimension sizes (`getDimensions`)
and its samples, addressed by multi-index.  The reader reads the samples as
`uint16_t`; values are modelled as `Nat`. -/
structure HDataset where
  dims : List Nat
  elem : List Nat → Nat

/-- An HDF5 attribute value: either a string or a numeric (double) value.
Doubles are modelled as rationals. -/
inductive AttrVal where
  | str : String → AttrVal
  | num : ℚ → AttrVal

/-- Abstract content of an open HDF5 file, keyed by full path strings as the
reader assembles them. `groups p = some ns` means the group at `p` exists and
`listObjectNames` returns `ns`; `none` means the group lookup throws.
`attrs p k` is the attribute `k` of the group at `p` (`none`: `hasAttribute`
is false, or the read throws). `datasets p` is the dataset at `p` (`none`:
`getDataSet` throws). -/
structure HFile where
  groups : String → Option (List String)
  attrs : String → String → Option AttrVal
  datasets : String → Option HDataset

/-- The reader state: the process-wide `std::unique_ptr<File> file`.
`none` is the closed state (null pointer). -/
abbrev ReaderState := Option HFile

/-- Result of running one reader method. `ok` is a normal return.  `ub` marks
executions that hit C++ undefined behavior — dereferencing the null `file`
handle (`file->getGroup` / `file->getDataSet` while closed) or indexing a
`std::vector` out of bounds — which the `catch (const std::exception&)`
blocks do not intercept. -/
inductive Outcome (α : Type) where
  | ok : α → Outcome α
  | ub : Outcome α
deriving DecidableEq, Repr

/-- Whether an outcome is a normal return. -/
def Outcome.isOk {α : Type} : Outcome α → Bool
  | .ok _ => true
  | .ub => false

/-- Path of the fixed channels group (`getChannelIds` does
`getGroup("measurements/00000001")` then `.getGroup("channels")`). -/
def channelsPath : String := "measurements/00000001/channels"

/-- Path of a channel's group, as concatenated in `getChannelAttributes`. -/
def chPath (channelId : String) : String :=
  "measurements/00000001/channels/" ++ channelId

/-- Path of a channel's fixed block group, as concatenated in
`getAvailableDatasets`. -/
def blockPath (channelId : String) : String :=
  "measurements/00000001/channels/" ++ channelId ++ "/blocks/00000001"

/-- Path of a dataset, as concatenated in `getDatasetShape` and
`readDatasetChunk`. -/
def dsPath (channelId datasetName : String) : String :=
  "measurements/00000001/channels/" ++ channelId ++ "/blocks/00000001/" ++ datasetName

/-- `HDF5Reader::openFile`.  The second argument models what
`std::make_unique<File>(filepath, File::ReadOnly)` produces for the given
path: `some f` on success, `none` when the constructor throws (missing file,
format error, permission).  On success the new handle is assigned; on failure
the exception is raised before the assignment, so the member `file` keeps its
previous value, and `false` is returned. -/
def openFile (st : ReaderState) (attempt : Option HFile) : Bool × ReaderState :=
  match attempt with
  | some f => (true, some f)
  | none => (false, st)

/-- `HDF5Reader::closeFile`: `if (file) { file.reset(); }`. -/
def closeFile (st : ReaderState) : ReaderState :=
  match st with
  | some _ => none
  | none => none

/-- `HDF5Reader::getChannelIds`.  With a null handle the code dereferences it
(`file->getGroup`), which is undefined behavior.  With an open handle, a
failing group lookup throws, is caught, and the empty vector is returned. -/
def getChannelIds (st : ReaderState) : Outcome (List String) :=
  match st with
  | none => .ub
  | some f =>
    match f.groups channelsPath with
    | none => .ok []
    | some ns => .ok ns

/-- Reading an attribute into a `std::string` (`attr.read(value)` with a
string): succeeds only for string-typed attributes; a type mismatch throws,
which the per-attribute `catch (...)` swallows. -/
def strVal : Option AttrVal → Option String
  | some (.str s) => some s
  | _ => none

/-- `std::to_string(double)`: `sprintf "%f"`, fixed notation with six
fractional digits.  Modelled on rationals: the printed string denotes
`round (q * 10^6) / 10^6`.  (glibc rounds decimal ties to even while `round`
here rounds half up; no claim in this development touches a tie.) -/
def fixed6String (q : ℚ) : String :=
  let n : ℤ := round (q * 1000000)
  let a : Nat := n.natAbs
  let frac : String := toString (a % 1000000)
  (if n < 0 then "-" else "") ++ toString (a / 1000000) ++ "." ++
    (String.mk (List.replicate (6 - frac.length) '0') ++ frac)

/-- The rational value denoted by `fixed6String q`. -/
def fixed6Val (q : ℚ) : ℚ := (round (q * 1000000) : ℚ) / 1000000

/-- Reading an attribute into a `double` and converting with
`std::to_string`: succeeds only for numeric attributes. -/
def numVal : Option AttrVal → Option String
  | some (.num q) => some (fixed6String q)
  | _ => none

/-- One iteration of the string-attribute loop in `getChannelAttributes`:
key present and string-typed contributes one map entry, anything else is
skipped. -/
def readStrAttr (g : String → Option AttrVal) (k : String) : List (String × String) :=
  match strVal (g k) with
  | some s => [(k, s)]
  | none => []

/-- One numeric-attribute block in `getChannelAttributes`. -/
def readNumAttr (g : String → Option AttrVal) (k : String) : List (String × String) :=
  match numVal (g k) with
  | some s => [(k, s)]
  | none => []

/-- The attribute map assembled by `getChannelAttributes` from a channel
group's attributes.  The C++ `std::map` is modelled as an association list;
the five allow-listed keys are pairwise distinct, so only the key-value set
matters. -/
def readAttrs (g : String → Option AttrVal) : List (String × String) :=
  readStrAttr g "name" ++ readStrAttr g "physicalUnit" ++ readStrAttr g "ChannelName" ++
    readNumAttr g "binToVoltConstant" ++ readNumAttr g "binToVoltFactor"

/-- `HDF5Reader::getChannelAttributes`.  A failing channel-group lookup is
caught and yields the empty map; a null handle is dereferenced. -/
def getChannelAttributes (st : ReaderState) (channelId : String) :
    Outcome (List (String × String)) :=
  match st with
  | none => .ub
  | some f =>
    match f.groups (chPath channelId) with
    | none => .ok []
    | some _ => .ok (readAttrs (f.attrs (chPath channelId)))

/-- The dataset-name filter in `getAvailableDatasets`:
`name.find("data") == 0 || name == "raw"`. -/
def keepDatasetName (nm : String) : Bool :=
  "data".data.isPrefixOf nm.data || nm == "raw"

/-- `HDF5Reader::getAvailableDatasets`. -/
def getAvailableDatasets (st : ReaderState) (channelId : String) :
    Outcome (List String) :=
  match st with
  | none => .ub
  | some f =>
    match f.groups (blockPath channelId) with
    | none => .ok []
    | some ns => .ok (ns.filter keepDatasetName)

/-- `HDF5Reader::getDatasetShape`.  The C++ returns the dimensions cast to
`double`; the claims only concern the dimension values, kept here as `Nat`. -/
def getDatasetShape (st : ReaderState) (channelId datasetName : String) :
    Outcome (List Nat) :=
  match st with
  | none => .ub
  | some f =>
    match f.datasets (dsPath channelId datasetName) with
    | none => .ok []
    | some d => .ok d.dims

/-- `size_t` subtraction: wraps modulo `2^64`. -/
def sub64 (a b : Nat) : Nat := (a % 2 ^ 64 + (2 ^ 64 - b % 2 ^ 64)) % 2 ^ 64

/-- The clamp in `readDatasetChunk`:
`size_t actualCount = std::min(count, dims[0] - startIdx);` in `size_t`
arithmetic. -/
def clampCount (count dim0 startIdx : Nat) : Nat :=
  min count (sub64 dim0 startIdx)

/-- Library model, rank 1: `dataset.select({startIdx}, {cnt}).read(data)`.
The selection succeeds exactly when the slab lies inside the extent and then
yields the contiguous sub-range; otherwise the library throws (`none`). -/
def selectRead1 (d : HDataset) (offset cnt : Nat) : Option (List Nat) :=
  match d.dims with
  | [n] =>
    if offset + cnt ≤ n then
      some ((List.range cnt).map fun i => d.elem [offset + i])
    else none
  | _ => none

/-- Library model, rank 2: `dataset.select({startIdx, 0}, {cnt, dims[1]})`
read into a vector of rows, each of the full width `dims[1]`. -/
def selectRead2 (d : HDataset) (offset cnt : Nat) : Option (List (List Nat)) :=
  match d.dims with
  | [n, m] =>
    if offset + cnt ≤ n then
      some ((List.range cnt).map fun i => (List.range m).map fun j => d.elem [offset + i, j])
    else none
  | _ => none

/-- The flattening loop `for (const auto& row : data2d) data.push_back(row[0]);`.
`row[0]` on an empty row (a rank-2 dataset with `dims[1] = 0`) is an
out-of-bounds `std::vector::operator[]`, i.e. undefined behavior. -/
def firstCol : List (List Nat) → Outcome (List Nat)
  | [] => .ok []
  | [] :: _ => .ub
  | (x :: _) :: rs =>
    match firstCol rs with
    | .ok l => .ok (x :: l)
    | .ub => .ub

/-- `HDF5Reader::readDatasetChunk`.  Rank 1: clamp, `data.resize(actualCount)`
(which zero-fills), then the hyperslab read; if the read throws, the zero
vector that `resize` produced is returned (the model assumes the `resize`
allocation itself succeeds).  Rank 2: clamp, read the block, flatten by taking
`row[0]` of each row; if the read throws, the untouched empty `data` is
returned.  Any other rank falls through with `data` still empty. -/
def readDatasetChunk (st : ReaderState) (channelId datasetName : String)
    (startIdx count : Nat) : Outcome (List Nat) :=
  match st with
  | none => .ub
  | some f =>
    match f.datasets (dsPath channelId datasetName) with
    | none => .ok []
    | some d =>
      match d.dims with
      | [n] =>
        let actualCount := clampCount count n startIdx
        match selectRead1 d startIdx actualCount with
        | some v => .ok v
        | none => .ok (List.replicate actualCount 0)
      | [n, _] =>
        let actualCount := clampCount count n startIdx
        match selectRead2 d startIdx actualCount with
        | some rows => firstCol rows
        | none => .ok []
      | _ => .ok []

/-- Value of a decimal digit character, `none` for anything else. -/
def digitVal (c : Char) : Option Nat :=
  if 48 ≤ c.toNat ∧ c.toNat ≤ 57 then some (c.toNat - 48) else none

/-- Value of a nonempty decimal digit string (helper accumulator). -/
def digitsValAux : Nat → List Char → Option Nat
  | acc, [] => some acc
  | acc, c :: cs =>
    match digitVal c with
    | some d => digitsValAux (acc * 10 + d) cs
    | none => none

/-- Value of a decimal digit string; `none` when empty or not all digits. -/
def digitsVal : List Char → Option Nat
  | [] => none
  | cs => digitsValAux 0 cs

/-- Split a character list at its first dot. -/
def splitDot : List Char → Option (List Char × List Char)
  | [] => none
  | c :: cs =>
    if c = '.' then some ([], cs)
    else
      match splitDot cs with
      | some (a, b) => some (c :: a, b)
      | none => none

/-- Parse a fixed-point decimal string (optional leading minus, integer part,
dot, fractional part) back to the rational it denotes.  This is the reference
reading of the strings `fixed6String` produces. -/
def parseFixed6 (s : String) : Option ℚ :=
  let cs := s.data
  match cs with
  | '-' :: t =>
    match splitDot t with
    | some (ip, fp) =>
      match digitsVal ip, digitsVal fp with
      | some a, some b => some (-((a : ℚ) + (b : ℚ) / 10 ^ fp.length))
      | _, _ => none
    | none => none
  | _ =>
    match splitDot cs with
    | some (ip, fp) =>
      match digitsVal ip, digitsVal fp with
      | some a, some b => some ((a : ℚ) + (b : ℚ) / 10 ^ fp.length)
      | _, _ => none
    | none => none

/-- The N-API argument conversion in the `ReadDatasetChunk` wrapper:
`info[i].As<Napi::Number>().Uint32Value()`, ECMAScript `ToUint32` on a
nonnegative integral argument, i.e. reduction modulo `2^32`. -/
def uint32Value (n : Nat) : Nat := n % 2 ^ 32

/-- The N-API wrapper `ReadDatasetChunk`: both numeric arguments pass through
`Uint32Value` before the member function is called. -/
def readDatasetChunkFFI (st : ReaderState) (channelId datasetName : String)
    (startIdx count : Nat) : Outcome (List Nat) :=
  readDatasetChunk st channelId datasetName (uint32Value startIdx) (uint32Value count)

/-! Concrete fixture files used to evaluate the operations at specific
inputs. -/

/-- A rank-1 dataset of length 5; the sample at index `i` is `100 + i`. -/
def d5 : HDataset := ⟨[5], fun ix => 100 + ix.headI⟩

/-- A file whose every dataset path resolves to `d5`. -/
def f5 : HFile := ⟨fun _ => none, fun _ _ => none, fun _ => some d5⟩

/-- A rank-2 dataset of shape `(100, 2)`; the sample at `(i, j)` is
`7 * i + j`. -/
def d100 : HDataset := ⟨[100, 2], fun ix => 7 * ix.headI + ix.tail.headI⟩

/-- A file whose every dataset path resolves to `d100`. -/
def f100 : HFile := ⟨fun _ => none, fun _ _ => none, fun _ => some d100⟩

/-- A rank-3 dataset. -/
def d3 : HDataset := ⟨[2, 2, 2], fun _ => 7⟩

/-- A file whose every dataset path resolves to the rank-3 `d3`. -/
def f3 : HFile := ⟨fun _ => none, fun _ _ => none, fun _ => some d3⟩

/-- A file with one channel `CH1` and no attributes or datasets. -/
def fOne : HFile := ⟨fun _ => some ["CH1"], fun _ _ => none, fun _ => none⟩

/-- A file listing dataset names that exercise the `getAvailableDatasets`
filter: two names are kept, two are dropped. -/
def fNames : HFile :=
  ⟨fun _ => some ["data_left", "raw", "meta", "rawdata"], fun _ _ => none, fun _ => none⟩

/-- Channel-group attributes holding only a numeric `binToVoltFactor` whose
value `10⁻⁷` is below the `%f` precision. -/
def gTiny : String → Option AttrVal :=
  fun k => if k = "binToVoltFactor" then some (.num (1 / 10000000)) else none

/-- A file whose channel groups carry the `gTiny` attributes. -/
def fTiny : HFile := ⟨fun _ => some [], fun _ => gTiny, fun _ => none⟩

/-- Channel-group attributes with a string `name` and a numeric
`binToVoltFactor = 2.5`. -/
def gTwo : String → Option AttrVal :=
  fun k =>
    if k = "name" then some (.str "Voltage")
    else if k = "binToVoltFactor" then some (.num (5 / 2)) else none

/-- A file whose channel groups carry the `gTwo` attributes. -/
def fTwo : HFile := ⟨fun _ => some [], fun _ => gTwo, fun _ => none⟩

/-- The `gTwo` attributes with the `name` attribute made unreadable: only the
`name` entry should disappear from the result. -/
def gTwoDropName : String → Option AttrVal :=
  fun k => if k = "name" then none else gTwo k

/-- The fixed attribute allow-list of `getChannelAttributes`. -/
def attrAllowList : List String :=
  ["name", "physicalUnit", "ChannelName", "binToVoltConstant", "binToVoltFactor"]

/-! Helper lemmas about the embedded operations. -/

theorem sub64_of_le {a b : Nat} (hba : b ≤ a) (ha : a < 2 ^ 64) : sub64 a b = a - b := by
  unfold sub64
  omega

theorem sub64_of_gt {a b : Nat} (hab : a < b) (hb : b < 2 ^ 64) :
    sub64 a b = 2 ^ 64 - (b - a) := by
  unfold sub64
  omega

theorem firstCol_eq_ok {rows : List (List Nat)} (h : ∀ r ∈ rows, r ≠ []) :
    firstCol rows = .ok (rows.map List.headI) := by
  induction rows with
  | nil => rfl
  | cons r rs ih =>
    cases r with
    | nil => exact absurd rfl (h [] (by simp))
    | cons x t =>
      have hrec := ih (fun r hr => h r (List.mem_cons_of_mem _ hr))
      simp [firstCol, hrec, List.headI]

theorem headI_map_range {m : Nat} (hm : 1 ≤ m) (f : Nat → Nat) :
    ((List.range m).map f).headI = f 0 := by
  cases m with
  | zero => omega
  | succ k =>
    rw [List.range_succ_eq_map]
    simp

/-- C1 helper: the rank-1 read at an in-bounds start index. -/
theorem readDatasetChunk_rank1 (f : HFile) (ch ds : String) (d : HDataset)
    (n s c : Nat) (hd : f.datasets (dsPath ch ds) = some d) (hdim : d.dims = [n])
    (hs : s ≤ n) (hn : n < 2 ^ 64) :
    readDatasetChunk (some f) ch ds s c =
      .ok ((List.range (min c (n - s))).map fun i => d.elem [s + i]) := by
  have hclamp : clampCount c n s = min c (n - s) := by
    unfold clampCount
    rw [sub64_of_le hs hn]
  have hsel : selectRead1 d s (min c (n - s)) =
      some ((List.range (min c (n - s))).map fun i => d.elem [s + i]) := by
    unfold selectRead1
    simp only [hdim]
    rw [if_pos (by simp only [Nat.min_def]; split <;> omega)]
  simp only [readDatasetChunk, hd, hdim, hclamp, hsel]

/-- C1: for every open handle and rank-1 dataset with first dimension `n`,
`readDatasetChunk` with `startIdx ≤ n` returns exactly `min count (n - startIdx)`
values: the contiguous sub-range of the dataset starting at `startIdx`.
(The bound `n < 2^64` is the `size_t` range of a stored dimension.) -/
theorem C1_rank1_chunk_clamped (f : HFile) (ch ds : String) (d : HDataset)
    (n s c : Nat) (hd : f.datasets (dsPath ch ds) = some d) (hdim : d.dims = [n])
    (hs : s ≤ n) (hn : n < 2 ^ 64) :
    readDatasetChunk (some f) ch ds s c =
      .ok ((List.range (min c (n - s))).map fun i => d.elem [s + i]) ∧
    ((List.range (min c (n - s))).map fun i => d.elem [s + i]).length = min c (n - s) := by
  refine ⟨readDatasetChunk_rank1 f ch ds d n s c hd hdim hs hn, ?_⟩
  simp

/-- C1 witness: `startIdx = 0, count = 10` on a rank-1 dataset of length 5
returns exactly the 5 stored values. -/
theorem C1_rank1_chunk_clamped_witness :
    (readDatasetChunk (some f5) "CH1" "raw" 0 10 =
      .ok ((List.range (min 10 (5 - 0))).map fun i => d5.elem [0 + i]) ∧
     ((List.range (min 10 (5 - 0))).map fun i => d5.elem [0 + i]).length =
       min 10 (5 - 0)) ∧
    readDatasetChunk (some f5) "CH1" "raw" 0 10 = .ok [100, 101, 102, 103, 104] ∧
    min 10 (5 - 0) = 5 :=
  ⟨C1_rank1_chunk_clamped f5 "CH1" "raw" d5 5 0 10 rfl rfl (by norm_num) (by norm_num),
   by decide, by decide⟩

/-- C3: when `startIdx > dims[0]`, the `size_t` clamp `dims[0] - startIdx`
wraps modulo `2^64`: the computed `actualCount` is
`min count ((dims[0] - startIdx) mod 2^64) = min count (2^64 - (startIdx - dims[0]))`,
which is not clamped to zero; there is no bound check, and the rank-1 branch
returns the zero-filled resized vector of that length (the in-library read of
the out-of-extent slab throws and is caught), not an empty result. -/
theorem C3_clamp_underflow (f : HFile) (ch ds : String) (d : HDataset)
    (n s c : Nat) (hd : f.datasets (dsPath ch ds) = some d) (hdim : d.dims = [n])
    (hns : n < s) (hs : s < 2 ^ 64) :
    (clampCount c n s : ℤ) = min (c : ℤ) (((n : ℤ) - (s : ℤ)) % 2 ^ 64) ∧
    clampCount c n s = min c (2 ^ 64 - (s - n)) ∧
    0 < 2 ^ 64 - (s - n) ∧
    readDatasetChunk (some f) ch ds s c =
      .ok (List.replicate (min c (2 ^ 64 - (s - n))) 0) := by
  have hsub : sub64 n s = 2 ^ 64 - (s - n) := sub64_of_gt hns hs
  have hclamp : clampCount c n s = min c (2 ^ 64 - (s - n)) := by
    unfold clampCount
    rw [hsub]
  have hmod : ((n : ℤ) - (s : ℤ)) % 2 ^ 64 = ((2 ^ 64 - (s - n) : Nat) : ℤ) := by
    omega
  refine ⟨?_, hclamp, by omega, ?_⟩
  · rw [hclamp, hmod, Nat.cast_min]
  · have hsel : selectRead1 d s (min c (2 ^ 64 - (s - n))) = none := by
      unfold selectRead1
      simp only [hdim]
      rw [if_neg (by omega)]
    simp only [readDatasetChunk, hd, hdim, hclamp, hsel]

/-- C3 witness: `dims[0] = 5, startIdx = 6, count = 10` yields the computed
`actualCount = 10`, not 0. -/
theorem C3_clamp_underflow_witness :
    ((clampCount 10 5 6 : ℤ) = min (10 : ℤ) (((5 : ℤ) - (6 : ℤ)) % 2 ^ 64) ∧
     clampCount 10 5 6 = min 10 (2 ^ 64 - (6 - 5)) ∧
     0 < 2 ^ 64 - (6 - 5) ∧
     readDatasetChunk (some f5) "CH1" "raw" 6 10 =
       .ok (List.replicate (min 10 (2 ^ 64 - (6 - 5))) 0)) ∧
    min 10 (2 ^ 64 - (6 - 5)) = 10 ∧ clampCount 10 5 6 = 10 :=
  ⟨C3_clamp_underflow f5 "CH1" "raw" d5 5 6 10 rfl rfl (by norm_num) (by norm_num),
   by decide, by decide⟩

/-- C5: on a dataset whose rank is neither 1 nor 2, `readDatasetChunk`
returns an empty sequence without raising. -/
theorem C5_unsupported_rank_empty (f : HFile) (ch ds : String) (d : HDataset)
    (hd : f.datasets (dsPath ch ds) = some d)
    (h1 : d.dims.length ≠ 1) (h2 : d.dims.length ≠ 2) (s c : Nat) :
    readDatasetChunk (some f) ch ds s c = .ok [] := by
  rcases hdm : d.dims with _ | ⟨a, _ | ⟨b, _ | ⟨e, tl⟩⟩⟩
  · simp only [readDatasetChunk, hd, hdm]
  · exact absurd (by rw [hdm]; rfl) h1
  · exact absurd (by rw [hdm]; rfl) h2
  · simp only [readDatasetChunk, hd, hdm]

/-- C2: for every open handle and rank-2 dataset of shape `(n, m)` (with a
column 0 to take, `1 ≤ m`), `readDatasetChunk` with `startIdx ≤ n` clamps
`count` to `n - startIdx`, reads the block of shape `(actualCount, m)` at row
`startIdx`, and returns exactly `actualCount` values, the i-th being row
`startIdx + i`, column 0; the other columns are discarded. -/
theorem C2_rank2_first_column (f : HFile) (ch ds : String) (d : HDataset)
    (n m s c : Nat) (hd : f.datasets (dsPath ch ds) = some d)
    (hdim : d.dims = [n, m]) (hs : s ≤ n) (hn : n < 2 ^ 64) (hm : 1 ≤ m) :
    readDatasetChunk (some f) ch ds s c =
      .ok ((List.range (min c (n - s))).map fun i => d.elem [s + i, 0]) ∧
    ((List.range (min c (n - s))).map fun i => d.elem [s + i, 0]).length =
      min c (n - s) := by
  have hclamp : clampCount c n s = min c (n - s) := by
    unfold clampCount
    rw [sub64_of_le hs hn]
  have hsel : selectRead2 d s (min c (n - s)) =
      some ((List.range (min c (n - s))).map
        fun i => (List.range m).map fun j => d.elem [s + i, j]) := by
    unfold selectRead2
    simp only [hdim]
    rw [if_pos (by simp only [Nat.min_def]; split <;> omega)]
  have hfc : firstCol ((List.range (min c (n - s))).map
        fun i => (List.range m).map fun j => d.elem [s + i, j]) =
      .ok (((List.range (min c (n - s))).map
        fun i => (List.range m).map fun j => d.elem [s + i, j]).map List.headI) := by
    apply firstCol_eq_ok
    intro r hr
    simp only [List.mem_map] at hr
    obtain ⟨i, _, rfl⟩ := hr
    intro hnil
    rw [List.map_eq_nil_iff, List.range_eq_nil] at hnil
    omega
  have hcols : (((List.range (min c (n - s))).map
        fun i => (List.range m).map fun j => d.elem [s + i, j]).map List.headI) =
      (List.range (min c (n - s))).map fun i => d.elem [s + i, 0] := by
    rw [List.map_map]
    refine List.map_congr_left ?_
    intro i _
    exact headI_map_range hm (fun j => d.elem [s + i, j])
  constructor
  · simp only [readDatasetChunk, hd, hdim, hclamp, hsel, hfc, hcols]
  · simp

/-- C2 witness: shape `(100, 2)`, `startIdx = 0, count = 100` returns exactly
100 values, each equal to row i, column 0. -/
theorem C2_rank2_first_column_witness :
    (readDatasetChunk (some f100) "CH1" "data_min" 0 100 =
      .ok ((List.range (min 100 (100 - 0))).map fun i => d100.elem [0 + i, 0]) ∧
     ((List.range (min 100 (100 - 0))).map fun i => d100.elem [0 + i, 0]).length =
       min 100 (100 - 0)) ∧
    min 100 (100 - 0) = 100 :=
  ⟨C2_rank2_first_column f100 "CH1" "data_min" d100 100 2 0 100 rfl rfl
     (by norm_num) (by norm_num) (by norm_num),
   by decide⟩

/-- C5 witness: a rank-3 dataset yields the empty sequence. -/
theorem C5_unsupported_rank_empty_witness :
    readDatasetChunk (some f3) "CH1" "raw" 0 10 = .ok [] :=
  C5_unsupported_rank_empty f3 "CH1" "raw" d3 rfl (by decide) (by decide) 0 10

/-- C4 (evaluation at the failing input): with no handle open, every
operation other than `openFile` dereferences the null `file` pointer
(`file->getGroup` / `file->getDataSet` through a null `unique_ptr`), which is
undefined behavior that the `catch (const std::exception&)` handler does not
intercept — not the empty-sequence silent degrade the spec describes. -/
theorem C4_closed_state_dereferences_null :
    getChannelIds none = .ub ∧
    getChannelAttributes none "CH1" = .ub ∧
    getAvailableDatasets none "CH1" = .ub ∧
    getDatasetShape none "CH1" "raw" = .ub ∧
    readDatasetChunk none "CH1" "raw" 0 10 = .ub ∧
    Outcome.ub ≠ Outcome.ok ([] : List String) :=
  ⟨rfl, rfl, rfl, rfl, rfl, by simp⟩

/-- C8 (amended): a failing `openFile` returns `false` and does not raise;
the exception is thrown before the assignment to `file`, so the handle keeps
its previous value — from the closed state it remains unset, but a previously
open handle is not cleared. -/
theorem C8_openFile_failure_keeps_handle (st : ReaderState) :
    openFile st none = (false, st) ∧ openFile none none = (false, none) :=
  ⟨rfl, rfl⟩

/-- C8 counterexample: from a state with an open handle, a failed `openFile`
returns `false` but leaves the old handle set, and subsequent calls still act
on the old file (here `getChannelIds` lists its channels) instead of behaving
as in the closed state. -/
theorem C8_openFile_failure_cex :
    (openFile (some fOne) none).1 = false ∧
    (openFile (some fOne) none).2 = some fOne ∧
    some fOne ≠ (none : ReaderState) ∧
    getChannelIds (openFile (some fOne) none).2 = .ok ["CH1"] ∧
    getChannelIds none = .ub :=
  ⟨rfl, rfl, by simp, rfl, rfl⟩

/-- C9: `closeFile` releases the handle if present, is a no-op when already
closed, and is idempotent: the state after two consecutive calls equals the
state after one. -/
theorem C9_closeFile_idempotent (st : ReaderState) :
    closeFile (closeFile st) = closeFile st ∧ closeFile st = none ∧
    closeFile none = none := by
  rcases st with _ | f <;> exact ⟨rfl, rfl, rfl⟩

theorem readDatasetChunk_count_zero (f : HFile) (ch ds : String) (s : Nat) :
    readDatasetChunk (some f) ch ds s 0 = .ok [] := by
  cases hd : f.datasets (dsPath ch ds) with
  | none => simp only [readDatasetChunk, hd]
  | some d =>
    have hc0 : ∀ n, clampCount 0 n s = 0 := fun n => by
      unfold clampCount
      simp
    rcases hdm : d.dims with _ | ⟨a, _ | ⟨b, _ | ⟨e, tl⟩⟩⟩
    · simp only [readDatasetChunk, hd, hdm]
    · simp only [readDatasetChunk, hd, hdm, hc0]
      by_cases hP : s + 0 ≤ a
      · have hsel : selectRead1 d s 0 = some [] := by
          unfold selectRead1
          simp only [hdm]
          rw [if_pos hP]
          simp
        rw [hsel]
      · have hsel : selectRead1 d s 0 = none := by
          unfold selectRead1
          simp only [hdm]
          rw [if_neg hP]
        rw [hsel]
        rfl
    · simp only [readDatasetChunk, hd, hdm, hc0]
      by_cases hP : s + 0 ≤ a
      · have hsel : selectRead2 d s 0 = some [] := by
          unfold selectRead2
          simp only [hdm]
          rw [if_pos hP]
          simp
        rw [hsel]
        rfl
      · have hsel : selectRead2 d s 0 = none := by
          unfold selectRead2
          simp only [hdm]
          rw [if_neg hP]
        rw [hsel]
    · simp only [readDatasetChunk, hd, hdm]

/-- C10: in the N-API wrapper `ReadDatasetChunk`, both numeric arguments are
coerced through `Uint32Value` before the read, so the values actually used
are the truncations modulo `2^32`; a `count` of `2^32` wraps to 0 and the
call reads zero elements. -/
theorem C10_ffi_uint32_wrap (st : ReaderState) (ch ds : String) (s c : Nat)
    (f : HFile) :
    readDatasetChunkFFI st ch ds s c =
      readDatasetChunk st ch ds (s % 2 ^ 32) (c % 2 ^ 32) ∧
    readDatasetChunkFFI (some f) ch ds s (2 ^ 32) = .ok [] := by
  constructor
  · rfl
  · have h32 : uint32Value (2 ^ 32) = 0 := by norm_num [uint32Value]
    unfold readDatasetChunkFFI
    rw [h32]
    exact readDatasetChunk_count_zero f ch ds (uint32Value s)

/-- C7: for an open handle whose block group exists and lists `ns`,
`getAvailableDatasets` returns exactly the names of `ns` that start with
`data` or equal `raw`, in listing order (the result is a sublist of `ns`). -/
theorem C7_available_datasets_filter (f : HFile) (ch : String) (ns : List String)
    (hg : f.groups (blockPath ch) = some ns) :
    getAvailableDatasets (some f) ch = .ok (ns.filter keepDatasetName) ∧
    (∀ nm, nm ∈ ns.filter keepDatasetName ↔
      nm ∈ ns ∧ ("data".data.isPrefixOf nm.data = true ∨ nm = "raw")) ∧
    (ns.filter keepDatasetName).Sublist ns := by
  refine ⟨by simp only [getAvailableDatasets, hg], ?_, List.filter_sublist ns⟩
  intro nm
  rw [List.mem_filter]
  unfold keepDatasetName
  simp

/-- C7 witness: of `["data_left", "raw", "meta", "rawdata"]` exactly
`["data_left", "raw"]` survive the filter, in listing order. -/
theorem C7_available_datasets_filter_witness :
    (getAvailableDatasets (some fNames) "CH1" =
      .ok ((["data_left", "raw", "meta", "rawdata"] : List String).filter keepDatasetName) ∧
     (∀ nm, nm ∈ (["data_left", "raw", "meta", "rawdata"] : List String).filter keepDatasetName ↔
       nm ∈ (["data_left", "raw", "meta", "rawdata"] : List String) ∧
         ("data".data.isPrefixOf nm.data = true ∨ nm = "raw")) ∧
     ((["data_left", "raw", "meta", "rawdata"] : List String).filter
        keepDatasetName).Sublist ["data_left", "raw", "meta", "rawdata"]) ∧
    getAvailableDatasets (some fNames) "CH1" = .ok ["data_left", "raw"] :=
  ⟨C7_available_datasets_filter fNames "CH1" ["data_left", "raw", "meta", "rawdata"] rfl,
   by decide⟩

theorem lookup_append (k : String) (l₁ l₂ : List (String × String)) :
    List.lookup k (l₁ ++ l₂) = (List.lookup k l₁).or (List.lookup k l₂) := by
  induction l₁ with
  | nil => rfl
  | cons p t ih =>
    obtain ⟨a, b⟩ := p
    by_cases h : (k == a) = true
    · simp [List.lookup, h]
    · have h' : (k == a) = false := by simpa using h
      simp [List.lookup, h', ih]

theorem lookup_readStrAttr (g : String → Option AttrVal) (k k' : String) :
    List.lookup k' (readStrAttr g k) = if k' = k then strVal (g k) else none := by
  unfold readStrAttr
  rcases hsv : strVal (g k) with _ | s
  · simp [List.lookup]
  · by_cases h : k' = k
    · simp [List.lookup, h]
    · have hb : (k' == k) = false := by simpa using h
      simp [List.lookup, h, hb]

theorem lookup_readNumAttr (g : String → Option AttrVal) (k k' : String) :
    List.lookup k' (readNumAttr g k) = if k' = k then numVal (g k) else none := by
  unfold readNumAttr
  rcases hsv : numVal (g k) with _ | s
  · simp [List.lookup]
  · by_cases h : k' = k
    · simp [List.lookup, h]
    · have hb : (k' == k) = false := by simpa using h
      simp [List.lookup, h, hb]

/-- Every key of the attribute map is read off `g` at that key alone: the
lookup result is a function of `g` at the five fixed names. -/
theorem lookup_readAttrs (g : String → Option AttrVal) (k' : String) :
    List.lookup k' (readAttrs g) =
      if k' = "name" then strVal (g "name")
      else if k' = "physicalUnit" then strVal (g "physicalUnit")
      else if k' = "ChannelName" then strVal (g "ChannelName")
      else if k' = "binToVoltConstant" then numVal (g "binToVoltConstant")
      else if k' = "binToVoltFactor" then numVal (g "binToVoltFactor")
      else none := by
  unfold readAttrs
  rw [lookup_append, lookup_append, lookup_append, lookup_append,
    lookup_readStrAttr, lookup_readStrAttr, lookup_readStrAttr,
    lookup_readNumAttr, lookup_readNumAttr]
  by_cases h1 : k' = "name" <;>
    by_cases h2 : k' = "physicalUnit" <;>
    by_cases h3 : k' = "ChannelName" <;>
    by_cases h4 : k' = "binToVoltConstant" <;>
    by_cases h5 : k' = "binToVoltFactor" <;>
    simp_all

theorem mem_readStrAttr {g : String → Option AttrVal} {k : String}
    {p : String × String} (h : p ∈ readStrAttr g k) : p.1 = k := by
  unfold readStrAttr at h
  rcases hsv : strVal (g k) with _ | s <;> rw [hsv] at h
  · simp at h
  · simp at h
    simp [h]

theorem mem_readNumAttr {g : String → Option AttrVal} {k : String}
    {p : String × String} (h : p ∈ readNumAttr g k) : p.1 = k := by
  unfold readNumAttr at h
  rcases hsv : numVal (g k) with _ | s <;> rw [hsv] at h
  · simp at h
  · simp at h
    simp [h]

theorem mem_readAttrs_key {g : String → Option AttrVal} {p : String × String}
    (hp : p ∈ readAttrs g) : p.1 ∈ attrAllowList := by
  unfold readAttrs at hp
  simp only [List.mem_append] at hp
  rcases hp with ((((h | h) | h) | h) | h)
  · simp [attrAllowList, mem_readStrAttr h]
  · simp [attrAllowList, mem_readStrAttr h]
  · simp [attrAllowList, mem_readStrAttr h]
  · simp [attrAllowList, mem_readNumAttr h]
  · simp [attrAllowList, mem_readNumAttr h]

/-- C6 counterexample: a numeric attribute with value `10⁻⁷` is stringified
by `std::to_string` (`%f`, six fractional digits) to `"0.000000"`, which
parses back to `0`, not to the original value — so numeric attributes are not
in general returned as strings parseable back to the original value. -/
theorem C6_attributes_roundtrip_cex :
    getChannelAttributes (some fTiny) "CH1" = .ok [("binToVoltFactor", "0.000000")] ∧
    parseFixed6 "0.000000" = some 0 ∧
    (0 : ℚ) ≠ 1 / 10000000 := by
  refine ⟨?_, ?_, by norm_num⟩
  · have hr : round ((1 / 10000000 : ℚ) * 1000000) = 0 := by norm_num [round_eq]
    have hstr : fixed6String (1 / 10000000) = "0.000000" := by
      simp only [fixed6String, hr]
      decide
    simp [getChannelAttributes, fTiny, readAttrs, readStrAttr, readNumAttr,
      strVal, numVal, gTiny]
    rw [← one_div]
    exact hstr
  · simp [parseFixed6, splitDot, digitsVal, digitsValAux, digitVal]

/-- C6 (amended): the key set of `getChannelAttributes` is always a subset of
the fixed allow-list; with an open handle the call never aborts; each
attribute is read independently, so changing (or breaking) one attribute
changes no other key's lookup; a present numeric attribute `q` is rendered by
`fixed6String` (fixed six fractional decimal digits, denoting
`round (q*10^6)/10^6`), which round-trips exactly the values expressible with
six fractional digits — e.g. `2.5` parses back — but not values below that
precision. -/
theorem C6_attributes_amended :
    (∀ st ch out p, getChannelAttributes st ch = .ok out → p ∈ out →
      p.1 ∈ attrAllowList) ∧
    (∀ f ch, (getChannelAttributes (some f) ch).isOk = true) ∧
    (∀ (g g' : String → Option AttrVal) (k k' : String),
      (∀ j, j ≠ k → g j = g' j) → k' ≠ k →
      List.lookup k' (readAttrs g) = List.lookup k' (readAttrs g')) ∧
    (∀ (g : String → Option AttrVal) (q : ℚ),
      g "binToVoltFactor" = some (.num q) →
      List.lookup "binToVoltFactor" (readAttrs g) = some (fixed6String q)) ∧
    (∀ z : ℤ, fixed6Val ((z : ℚ) / 1000000) = (z : ℚ) / 1000000) ∧
    parseFixed6 (fixed6String (5 / 2)) = some (5 / 2) := by
  refine ⟨?_, ?_, ?_, ?_, ?_, ?_⟩
  · intro st ch out p hok hp
    rcases st with _ | f
    · exact absurd hok (by simp [getChannelAttributes])
    · rcases hg : f.groups (chPath ch) with _ | ns
      · have : out = [] := by
          simp only [getChannelAttributes, hg] at hok
          exact (Outcome.ok.injEq _ _).mp hok.symm
        rw [this] at hp
        simp at hp
      · have : out = readAttrs (f.attrs (chPath ch)) := by
          simp only [getChannelAttributes, hg] at hok
          exact ((Outcome.ok.injEq _ _).mp hok).symm
        rw [this] at hp
        exact mem_readAttrs_key hp
  · intro f ch
    rcases hg : f.groups (chPath ch) with _ | ns <;>
      simp [getChannelAttributes, hg, Outcome.isOk]
  · intro g g' k k' hagree hne
    rw [lookup_readAttrs, lookup_readAttrs]
    by_cases h1 : k' = "name"
    · subst h1
      rw [hagree _ hne]
      simp
    · by_cases h2 : k' = "physicalUnit"
      · subst h2
        rw [hagree _ hne]
        simp [h1]
      · by_cases h3 : k' = "ChannelName"
        · subst h3
          rw [hagree _ hne]
          simp [h1, h2]
        · by_cases h4 : k' = "binToVoltConstant"
          · subst h4
            rw [hagree _ hne]
            simp [h1, h2, h3]
          · by_cases h5 : k' = "binToVoltFactor"
            · subst h5
              rw [hagree _ hne]
              simp [h1, h2, h3, h4]
            · simp [h1, h2, h3, h4, h5]
  · intro g q hq
    rw [lookup_readAttrs]
    simp [numVal, hq]
  · intro z
    have hc : ((z : ℚ) / 1000000) * 1000000 = (z : ℚ) :=
      div_mul_cancel₀ _ (by norm_num)
    rw [fixed6Val, hc, round_intCast]
  · have hr : round ((5 / 2 : ℚ) * 1000000) = 2500000 := by norm_num [round_eq]
    have hstr : fixed6String (5 / 2) = "2.500000" := by
      simp only [fixed6String, hr]
      decide
    rw [hstr]
    simp [parseFixed6, splitDot, digitsVal, digitsValAux, digitVal]
    norm_num

/-- C6 witness: concrete instances of each amended conjunct, on a channel
group carrying `name = "Voltage"` and `binToVoltFactor = 2.5`. -/
theorem C6_attributes_amended_witness :
    (("name", "Voltage") : String × String).1 ∈ attrAllowList ∧
    (getChannelAttributes (some fTwo) "CH1").isOk = true ∧
    List.lookup "binToVoltFactor" (readAttrs gTwo) =
      List.lookup "binToVoltFactor" (readAttrs gTwoDropName) ∧
    List.lookup "binToVoltFactor" (readAttrs gTwo) = some (fixed6String (5 / 2)) ∧
    fixed6Val (((5 : ℤ) : ℚ) / 1000000) = ((5 : ℤ) : ℚ) / 1000000 ∧
    parseFixed6 (fixed6String (5 / 2)) = some (5 / 2) :=
  ⟨C6_attributes_amended.1 (some fTwo) "CH1" (readAttrs gTwo) ("name", "Voltage")
     rfl (by simp [readAttrs, readStrAttr, strVal, gTwo]),
   C6_attributes_amended.2.1 fTwo "CH1",
   C6_attributes_amended.2.2.1 gTwo gTwoDropName "name" "binToVoltFactor"
     (fun j hj => by simp [gTwoDropName, hj]) (by decide),
   C6_attributes_amended.2.2.2.1 gTwo (5 / 2) (by simp [gTwo]),
   C6_attributes_amended.2.2.2.2.1 5,
   C6_attributes_amended.2.2.2.2.2⟩

end Hdf5
